import Mathlib

/-!
# haka worker-pool runtime (`src/haka/thread.c`)

A shallow embedding of the thread pool of `thread.c`.

* C pointers to externally owned objects (`struct lua_state *`,
  `struct packet_module_state *`, `struct engine_thread *`, `struct packet *`)
  are `Option Nat`: `none` is `NULL`, `some h` is the object with handle `h`.
  A `thread_t` is a `Nat`, `0` being the value left by `memset`.
* `pool->threads` is a list of `Option thread_state`, one slot per array cell.
  The back pointer `state->pool` is represented by passing the pool next to
  the worker.
* Every call to a function that is not defined in `thread.c` is recorded, in
  program order, as an `Event`. Results of such calls are supplied by explicit
  environment records, so every definition is a total, computable function.
  Logging calls are left out.
* `int32` counters are `Int` values; `++` wraps modulo `2^32`.
* Each assignment to `state->state` after the initialisation of the record is
  recorded as `Event.set_state id old new`.
* Each function is the sequential code of the thread that runs it. Steps of
  other threads are placed at the synchronisation that orders them: a spawned
  worker's start-up inside `thread_pool_create` (pair barrier
  `thread_start_sync`), the workers' loops before the joins that wait for them.
  Where the source leaves a read and a write unordered, the environment says
  which comes first.
-/

namespace Haka

/-- The anonymous `enum` of `thread.c` (lines 31-38). -/
inductive lifecycle where
  | STATE_NOTSARTED
  | STATE_ERROR
  | STATE_FINISHED
  | STATE_RUNNING
  | STATE_CANCELED
  | STATE_JOINED
  deriving DecidableEq, Repr

open lifecycle

/-- Status values passed to `engine_thread_update_status`. -/
inductive thread_status where
  | THREAD_RUNNING
  | THREAD_WAITING
  | THREAD_DEFUNC
  | THREAD_STOPPED
  deriving DecidableEq, Repr

open thread_status

/-- Calls leaving `thread.c`, and writes of the lifecycle field. -/
inductive Event where
  | engine_thread_update_status (engine : Option Nat) (status : thread_status)
  | packet_receive (engine : Option Nat)
  | lua_state_runinterrupt (lua : Option Nat)
  | engine_thread_check_remote_launch (engine : Option Nat)
  | luadebug_debugger_start (lua : Option Nat) (break_immediatly : Bool)
  | engine_thread_cleanup (engine : Nat)
  | lua_state_close (lua : Nat)
  | cleanup_state (capture : Nat)
  | free_thread_state (thread_id : Int)
  | lua_state_init (thread_id : Int)
  | init_state (thread_id : Int)
  | thread_create (thread_id : Int)
  | thread_join (thread : Nat)
  | thread_cancel (thread : Nat)
  | engine_thread_interrupt_begin (engine : Nat)
  | engine_thread_init (thread_id : Int)
  | packet_init (capture : Option Nat)
  | barrier_wait_thread_start_sync
  | barrier_wait_thread_sync
  | barrier_destroy
  | free_pool
  | trigger_started (lua : Option Nat)
  | error_no_thread_to_run
  | set_state (thread_id : Int) (old new : lifecycle)
  deriving DecidableEq, Repr

/-- The record `struct thread_state` (lines 40-52), without the `packet_module`
and `pool` pointers. -/
structure thread_state where
  thread_id : Int
  state : lifecycle
  capture : Option Nat
  lua : Option Nat
  lua_function : Int
  thread : Nat
  canceled : Bool
  attach_debugger : Int
  engine : Option Nat
  deriving DecidableEq, Repr

/-- The record `struct thread_pool` (lines 54-62), without the two barriers. -/
structure thread_pool where
  count : Int
  single : Bool
  stop : Bool
  attach_debugger : Int
  threads : List (Option thread_state)
  deriving DecidableEq, Repr

/-- Largest `int32` value. -/
def INT32_MAX : Int := 2147483647

/-- Smallest `int32` value. -/
def INT32_MIN : Int := -2147483648

/-- Reduction of an integer to the two's complement `int32` range. -/
def int32_wrap (x : Int) : Int := (x + 2147483648) % 4294967296 - 2147483648

/-! ## Operations offered to the scripting engine -/

/-- The three out-parameters `*pkt`, `*has_extra`, `*stop` of
`packet_receive_wrapper`. -/
structure receive_out where
  pkt : Option Nat
  has_extra : Bool
  stop : Bool
  deriving DecidableEq, Repr

/-- Answers of the external calls made by `packet_receive_wrapper`:
the return value of `packet_receive`, the value it leaves in `*pkt`, and the
results of `lua_state_has_interrupts` and `engine_thread_has_remote_launch`. -/
structure receive_env where
  packet_receive_ret : Int
  packet_receive_pkt : Option Nat
  lua_state_has_interrupts : Bool
  engine_thread_has_remote_launch : Bool
  deriving DecidableEq, Repr

/-- Function `packet_receive_wrapper` (lines 64-84). The `while` loop either
returns in its first iteration or is not entered, so `packet_receive` is called
exactly once. -/
def packet_receive_wrapper (pool : thread_pool) (state : thread_state)
    (env : receive_env) (out : receive_out) : receive_out × List Event :=
  let out1 : receive_out := if pool.stop then { out with stop := true } else out
  let ev1 := [Event.engine_thread_update_status state.engine THREAD_WAITING,
              Event.packet_receive state.engine]
  let out2 : receive_out := { out1 with pkt := env.packet_receive_pkt }
  if env.packet_receive_ret = 0 then
    ({ out2 with
        has_extra := env.lua_state_has_interrupts
          || decide (pool.attach_debugger > state.attach_debugger)
          || env.engine_thread_has_remote_launch },
     ev1 ++ [Event.engine_thread_update_status state.engine THREAD_RUNNING])
  else
    ({ out2 with stop := true }, ev1)

/-- Function `lua_state_run_extra` (lines 86-105). -/
def lua_state_run_extra (pool : thread_pool) (state : thread_state) :
    thread_state × List Event :=
  let ev := [Event.lua_state_runinterrupt state.lua,
             Event.engine_thread_check_remote_launch state.engine]
  if pool.attach_debugger > state.attach_debugger then
    ({ state with attach_debugger := pool.attach_debugger },
     ev ++ [Event.luadebug_debugger_start state.lua true])
  else
    (state, ev)

/-- Outcome of the three script-loading steps of `init_thread_lua_state`. -/
structure script_env where
  require_rule_ok : Bool
  run_file_ok : Bool
  rule_summary_ok : Bool
  deriving DecidableEq, Repr

/-- Function `init_thread_lua_state` (lines 231-272): returns the result, the
pool and the events. The worker record is only read. -/
def init_thread_lua_state (pool : thread_pool) (state : thread_state)
    (env : script_env) : Bool × thread_pool × List Event :=
  let ev := if pool.attach_debugger > state.attach_debugger then
      [Event.luadebug_debugger_start state.lua false] else []
  let pool1 : thread_pool := { pool with attach_debugger := state.attach_debugger }
  if !env.require_rule_ok then (false, pool1, ev)
  else if !env.run_file_ok then (false, pool1, ev)
  else if !env.rule_summary_ok then (false, pool1, ev)
  else (true, pool1, ev)

/-- Function `thread_pool_attachdebugger` (lines 572-576). -/
def thread_pool_attachdebugger (pool : thread_pool) : thread_pool :=
  { pool with attach_debugger := int32_wrap (pool.attach_debugger + 1) }

/-! ## Loops over the worker array -/

/-- One iteration of a loop of the shape
`for (i=0; i<pool->count; ++i) { if (pool->threads[i]) body(pool->threads[i]); }`:
the slot `i` of the array is read, and when it is not `NULL` the body runs on
the worker it points to. Events are appended in program order. The array has
`count` cells, so every index the loop visits is in range; an index outside
the list is passed over. -/
def visit_thread (body : thread_state → thread_state × List Event)
    (s : List (Option thread_state) × List Event) (i : Nat) :
    List (Option thread_state) × List Event :=
  match s.1[i]? with
  | some (some t) => (s.1.set i (some (body t).1), s.2 ++ (body t).2)
  | _ => s

/-- The loop `for (i=0; i<count; ++i)` over the worker array. -/
def for_each_thread (count : Int) (body : thread_state → thread_state × List Event)
    (threads : List (Option thread_state)) : List (Option thread_state) × List Event :=
  (List.range count.toNat).foldl (visit_thread body) (threads, [])

/-! ## Worker teardown -/

/-- Function `cleanup_thread_state_lua` (lines 142-156). -/
def cleanup_thread_state_lua (state : thread_state) : thread_state × List Event :=
  let r1 : thread_state × List Event :=
    match state.engine with
    | some e => ({ state with engine := none }, [Event.engine_thread_cleanup e])
    | none => (state, [])
  match r1.1.lua with
  | some l => ({ r1.1 with lua := none }, r1.2 ++ [Event.lua_state_close l])
  | none => r1

/-- Function `cleanup_thread_state` (lines 158-171). The record is returned as
it is when `free` is called on it. -/
def cleanup_thread_state (state : thread_state) : thread_state × List Event :=
  let r1 := cleanup_thread_state_lua state
  let r2 : thread_state × List Event :=
    match r1.1.capture with
    | some c => ({ r1.1 with capture := none }, r1.2 ++ [Event.cleanup_state c])
    | none => r1
  (r2.1, r2.2 ++ [Event.free_thread_state state.thread_id])

/-! ## Pool controller -/

/-- Body of the loop of `thread_pool_wait` (lines 491-498). -/
def thread_pool_wait_body (t : thread_state) : thread_state × List Event :=
  if t.state ≠ STATE_NOTSARTED ∧ t.state ≠ STATE_JOINED then
    ({ t with state := STATE_JOINED },
     [Event.thread_join t.thread, Event.set_state t.thread_id t.state STATE_JOINED])
  else (t, [])

/-- Function `thread_pool_wait` (lines 486-500). `thread_join` is recorded as a
call; what the joined thread does before it ends is `thread_main_loop`. -/
def thread_pool_wait (pool : thread_pool) : thread_pool × List Event :=
  let r := for_each_thread pool.count thread_pool_wait_body pool.threads
  ({ pool with threads := r.1 }, r.2)

/-- Body of the loop of `thread_pool_cancel` (lines 508-513). -/
def thread_pool_cancel_body (t : thread_state) : thread_state × List Event :=
  if t.state = STATE_RUNNING then
    ({ t with state := STATE_CANCELED },
     [Event.thread_cancel t.thread, Event.set_state t.thread_id t.state STATE_CANCELED])
  else (t, [])

/-- Function `thread_pool_cancel` (lines 502-516). -/
def thread_pool_cancel (pool : thread_pool) : thread_pool × List Event :=
  if !pool.single then
    let r := for_each_thread pool.count thread_pool_cancel_body pool.threads
    ({ pool with threads := r.1 }, r.2)
  else (pool, [])

/-- Body of the loop of `case 1` of `thread_pool_stop` (lines 547-551). -/
def thread_pool_stop_body (t : thread_state) : thread_state × List Event :=
  match t.engine with
  | some e => (t, [Event.engine_thread_interrupt_begin e])
  | none => (t, [])

/-- Function `thread_pool_stop` (lines 538-564). `case 2` has no `break` and
falls through to `default`. -/
def thread_pool_stop (pool : thread_pool) (force : Int) :
    Bool × thread_pool × List Event :=
  let pool1 : thread_pool := { pool with stop := true }
  if force = 1 then
    let r := for_each_thread pool1.count thread_pool_stop_body pool1.threads
    (true, { pool1 with threads := r.1 }, r.2)
  else if force = 2 then
    if !pool1.single then
      let r := thread_pool_cancel pool1
      (false, r.1, r.2)
    else (false, pool1, [])
  else (false, pool1, [])

/-- Function `thread_pool_cleanup` (lines 454-484). The pool is freed, only the
events remain. -/
def thread_pool_cleanup (pool : thread_pool) : List Event :=
  let r0 := if !pool.single then thread_pool_cancel pool else (pool, [])
  let r1 := for_each_thread r0.1.count cleanup_thread_state_lua r0.1.threads
  let r2 := for_each_thread r0.1.count cleanup_thread_state r1.1
  r0.2 ++ r1.2 ++ r2.2 ++ [Event.barrier_destroy, Event.barrier_destroy, Event.free_pool]

/-! ## Worker construction and worker loop -/

/-- A call the scripting engine makes from its `run` entry point. -/
inductive engine_call where
  | receive (env : receive_env)
  | run_extra
  deriving DecidableEq, Repr

/-- Answers of the external calls made while one worker is built and run:
allocation of the record, the handles returned by `lua_state_init`,
`init_state`, `thread_create` and `engine_thread_init` (`none` on failure), the
results of `thread_sigmask`, `timer_init_thread`, `thread_setcanceltype`, of the
script loading and of the `barrier_wait` calls, whether the controller's read of
the lifecycle state on line 443 sees a `STATE_ERROR` written by the worker
(`error_write_seen`), and the calls the scripting engine makes from its main
loop. -/
structure worker_env where
  malloc_ok : Bool
  lua_state_init : Option Nat
  init_state : Option Nat
  thread_create : Option Nat
  thread_sigmask_ok : Bool
  timer_init_thread_ok : Bool
  thread_setcanceltype_ok : Bool
  script : script_env
  engine_thread_init : Option Nat
  worker_barrier_start_ok : Bool
  controller_barrier_start_ok : Bool
  error_write_seen : Bool
  worker_barrier_sync_ok : Bool
  main_loop : List engine_call
  deriving DecidableEq, Repr

/-- The worker record right after `memset` and lines 187-190 of
`init_thread_state`. -/
def zeroed_thread_state (thread_id : Int) : thread_state :=
  { thread_id := thread_id, state := STATE_NOTSARTED, capture := none, lua := none,
    lua_function := 0, thread := 0, canceled := false, attach_debugger := 0,
    engine := none }

/-- Function `init_thread_state` (lines 173-229). -/
def init_thread_state (thread_id : Int) (env : worker_env) :
    Option thread_state × List Event :=
  if !env.malloc_ok then (none, [])
  else
    let state0 := zeroed_thread_state thread_id
    match env.lua_state_init with
    | none =>
      (none, [Event.lua_state_init thread_id] ++ (cleanup_thread_state state0).2)
    | some l =>
      let state1 : thread_state := { state0 with lua := some l }
      match env.init_state with
      | none =>
        (none, [Event.lua_state_init thread_id, Event.init_state thread_id]
          ++ (cleanup_thread_state state1).2)
      | some c =>
        (some { state1 with capture := some c },
         [Event.lua_state_init thread_id, Event.init_state thread_id])

/-- What the scripting engine does inside `lua_start_main_loop` (lines 107-140):
its calls to `packet_receive_wrapper` and `lua_state_run_extra`, in order. Each
`receive` gets fresh out-parameters. -/
def lua_start_main_loop (pool : thread_pool) :
    List engine_call → thread_state → List Event → thread_state × List Event
  | [], state, ev => (state, ev)
  | engine_call.receive env :: rest, state, ev =>
    lua_start_main_loop pool rest state
      (ev ++ (packet_receive_wrapper pool state env
        { pkt := none, has_extra := false, stop := false }).2)
  | engine_call.run_extra :: rest, state, ev =>
    lua_start_main_loop pool rest (lua_state_run_extra pool state).1
      (ev ++ (lua_state_run_extra pool state).2)

/-- The exit `barrier_wait(&state->pool->thread_start_sync); state->state =
STATE_ERROR; return NULL;` shared by lines 294-296, 301-303, 310-312, 316-318. -/
def thread_main_loop_abort (pool : thread_pool) (state : thread_state) (ev : List Event) :
    Bool × thread_pool × thread_state × List Event :=
  (false, pool, { state with state := STATE_ERROR },
   ev ++ [Event.barrier_wait_thread_start_sync,
          Event.set_state state.thread_id state.state STATE_ERROR])

/-- Lines 285-320 of `thread_main_loop`: the block guarded by
`!state->pool->single`. The first component tells whether the function goes on
(`true`) or has returned `NULL` (`false`). -/
def thread_main_loop_setup (pool : thread_pool) (state : thread_state) (env : worker_env) :
    Bool × thread_pool × thread_state × List Event :=
  if !pool.single then
    if !env.thread_sigmask_ok then thread_main_loop_abort pool state []
    else if !env.timer_init_thread_ok then thread_main_loop_abort pool state []
    else if !env.thread_setcanceltype_ok then thread_main_loop_abort pool state []
    else
      let i := init_thread_lua_state pool state env.script
      if !i.1 then thread_main_loop_abort i.2.1 state i.2.2
      else (true, i.2.1, state, i.2.2)
  else (true, pool, state, [])

/-- Lines 322-334 of `thread_main_loop`: the engine handle, `packet_init` and
the worker side of the `thread_start_sync` barrier; `ev` are the events so
far. -/
def thread_main_loop_engine (pool : thread_pool) (state : thread_state) (env : worker_env)
    (ev : List Event) : Bool × thread_pool × thread_state × List Event :=
  let state1 : thread_state := { state with engine := env.engine_thread_init }
  let ev1 := ev ++ [Event.engine_thread_init state1.thread_id,
    Event.engine_thread_update_status state1.engine THREAD_RUNNING,
    Event.packet_init state1.capture]
  if !pool.single then
    if !env.worker_barrier_start_ok then
      (false, pool, { state1 with state := STATE_ERROR },
       ev1 ++ [Event.barrier_wait_thread_start_sync,
               Event.set_state state1.thread_id state1.state STATE_ERROR,
               Event.engine_thread_update_status state1.engine THREAD_DEFUNC])
    else (true, pool, state1, ev1 ++ [Event.barrier_wait_thread_start_sync])
  else (true, pool, state1, ev1)

/-- Lines 283-334 of `thread_main_loop`: everything up to and including the
worker side of the `thread_start_sync` barrier. The first component tells
whether the function goes on (`true`) or has returned `NULL` (`false`). -/
def thread_main_loop_startup (pool : thread_pool) (state : thread_state) (env : worker_env) :
    Bool × thread_pool × thread_state × List Event :=
  let r := thread_main_loop_setup pool state env
  if !r.1 then r
  else thread_main_loop_engine r.2.1 r.2.2.1 env r.2.2.2

/-- Lines 336-366 of `thread_main_loop`: the `thread_sync` barrier, the
`started` event, the main loop and the final lifecycle write. -/
def thread_main_loop_run (pool : thread_pool) (state : thread_state) (env : worker_env) :
    thread_state × List Event :=
  if !pool.single && !env.worker_barrier_sync_ok then
    ({ state with state := STATE_ERROR },
     [Event.barrier_wait_thread_sync,
      Event.set_state state.thread_id state.state STATE_ERROR,
      Event.engine_thread_update_status state.engine THREAD_DEFUNC])
  else
    let ev0 := (if !pool.single then [Event.barrier_wait_thread_sync] else [])
      ++ [Event.trigger_started state.lua]
    let r := lua_start_main_loop pool env.main_loop state ev0
    ({ r.1 with state := STATE_FINISHED },
     r.2 ++ [Event.set_state r.1.thread_id r.1.state STATE_FINISHED,
             Event.engine_thread_update_status r.1.engine THREAD_STOPPED])

/-- Function `thread_main_loop` (lines 274-367). -/
def thread_main_loop (pool : thread_pool) (state : thread_state) (env : worker_env) :
    thread_pool × thread_state × List Event :=
  let s := thread_main_loop_startup pool state env
  if !s.1 then (s.2.1, s.2.2.1, s.2.2.2)
  else
    let r := thread_main_loop_run s.2.1 s.2.2.1 env
    (s.2.1, r.1, s.2.2.2 ++ r.2)

/-- Answers of the external calls made by `thread_pool_create`. -/
structure create_env where
  malloc_pool_ok : Bool
  barrier_init_thread_sync_ok : Bool
  barrier_init_thread_start_sync_ok : Bool
  worker : Nat → worker_env

/-- The loop of `thread_pool_create` (lines 413-449) over the indices still to
do. A spawned worker runs `thread_main_loop` in its own thread; the pair
barrier `thread_start_sync` orders the controller after the worker's start-up
up to the worker's `barrier_wait`, so the start-up is executed here, after the
controller's write of `STATE_RUNNING`. A worker that gives up writes
`STATE_ERROR` after its own `barrier_wait` (lines 294-295, 301-302, 310-311,
316-317, 328-330), so that write and the controller's read on line 443 are not
ordered: `error_write_seen` tells which comes first. When the read comes first
it finds `STATE_RUNNING`, the loop goes on, and the write takes effect directly
after the read. -/
def thread_pool_create_loop (env : create_env) :
    List Nat → thread_pool → List Event → Option thread_pool × List Event
  | [], pool, ev => (some pool, ev)
  | i :: rest, pool, ev =>
    match init_thread_state i (env.worker i) with
    | (none, e) => (none, ev ++ e ++ thread_pool_cleanup pool)
    | (some st, e) =>
      let pool1 : thread_pool := { pool with threads := pool.threads.set i (some st) }
      if pool1.single then
        let r := init_thread_lua_state pool1 st (env.worker i).script
        if !r.1 then (none, ev ++ e ++ r.2.2 ++ thread_pool_cleanup r.2.1)
        else thread_pool_create_loop env rest r.2.1 (ev ++ e ++ r.2.2)
      else
        match (env.worker i).thread_create with
        | none => (none, ev ++ e ++ [Event.thread_create i] ++ thread_pool_cleanup pool1)
        | some h =>
          let st1 : thread_state := { st with thread := h, state := STATE_RUNNING }
          let ev1 := ev ++ e ++ [Event.thread_create i,
            Event.set_state st.thread_id st.state STATE_RUNNING]
          let w := thread_main_loop_startup pool1 st1 (env.worker i)
          let pool2 : thread_pool :=
            { w.2.1 with threads := w.2.1.threads.set i (some w.2.2.1) }
          let ev2 := ev1 ++ w.2.2.2 ++ [Event.barrier_wait_thread_start_sync]
          if !(env.worker i).controller_barrier_start_ok then
            (none, ev2 ++ thread_pool_cleanup pool2)
          else if decide (w.2.2.1.state = STATE_ERROR) && (env.worker i).error_write_seen then
            (none, ev2 ++ thread_pool_cleanup pool2)
          else thread_pool_create_loop env rest pool2 ev2

/-- Function `thread_pool_create` (lines 369-452). The allocation of the array
`pool->threads` is taken to succeed, and `count > 0` is asserted by the code. -/
def thread_pool_create (count : Int) (attach_debugger : Bool) (env : create_env) :
    Option thread_pool × List Event :=
  if !env.malloc_pool_ok then (none, [])
  else
    let pool1 : thread_pool :=
      { count := count, single := decide (count = 1), stop := false,
        attach_debugger := 0, threads := List.replicate count.toNat none }
    if !env.barrier_init_thread_sync_ok then (none, thread_pool_cleanup pool1)
    else if !env.barrier_init_thread_start_sync_ok then (none, thread_pool_cleanup pool1)
    else
      let pool2 := if attach_debugger then thread_pool_attachdebugger pool1 else pool1
      thread_pool_create_loop env (List.range count.toNat) pool2 []

/-- What the worker threads of a multi-worker pool do once `thread_sync` is
released: every worker that is Running executes lines 336-366 of
`thread_main_loop` until its thread ends. These lines write no field shared
between workers, so the workers are taken one after the other. -/
def workers_run (pool : thread_pool) (env : Nat → worker_env) : thread_pool × List Event :=
  let r := for_each_thread pool.count
    (fun t => if t.state = STATE_RUNNING
      then thread_main_loop_run pool t (env t.thread_id.toNat) else (t, []))
    pool.threads
  ({ pool with threads := r.1 }, r.2)

/-- Function `thread_pool_start` (lines 523-536). With one worker the loop runs
in-line. With several, `barrier_wait(&pool->thread_sync)` releases the workers
and `thread_pool_wait` joins them; each `thread_join` returns only when the
joined thread has ended, so the workers' steps (`workers_run`) come before the
loop of `thread_pool_wait`. -/
def thread_pool_start (pool : thread_pool) (env : Nat → worker_env) :
    thread_pool × List Event :=
  if pool.count = 1 then
    match pool.threads[0]? with
    | some (some t) =>
      let r := thread_main_loop pool t (env 0)
      ({ r.1 with threads := r.1.threads.set 0 (some r.2.1) }, r.2.2)
    | _ => (pool, [])
  else if pool.count > 1 then
    let w := workers_run pool env
    let r := thread_pool_wait w.1
    (r.1, [Event.barrier_wait_thread_sync] ++ w.2 ++ r.2)
  else (pool, [Event.error_no_thread_to_run])

/-! ## Steps of a worker on the pool -/

/-- Applies a worker-level operation to slot `i` of the pool. -/
def on_thread (pool : thread_pool) (i : Nat)
    (f : thread_pool → thread_state → thread_pool × thread_state) : thread_pool :=
  match pool.threads[i]? with
  | some (some t) =>
    let r := f pool t
    { r.1 with threads := r.1.threads.set i (some r.2) }
  | _ => pool

/-- The four operations on the debugger counters. -/
inductive debugger_step where
  | attachdebugger
  | init_thread_lua_state (i : Nat) (env : script_env)
  | packet_receive_wrapper (i : Nat) (env : receive_env) (out : receive_out)
  | lua_state_run_extra (i : Nat)
  deriving DecidableEq, Repr

/-- Effect of one step on the pool. -/
def apply_step (pool : thread_pool) : debugger_step → thread_pool
  | debugger_step.attachdebugger => thread_pool_attachdebugger pool
  | debugger_step.init_thread_lua_state i env =>
    on_thread pool i (fun p t => ((init_thread_lua_state p t env).2.1, t))
  | debugger_step.packet_receive_wrapper _ _ _ => pool
  | debugger_step.lua_state_run_extra i =>
    on_thread pool i (fun p t => (p, (lua_state_run_extra p t).1))

/-- Effect of a sequence of steps. -/
def run_steps (pool : thread_pool) (steps : List debugger_step) : thread_pool :=
  steps.foldl apply_step pool

/-- The workers of a pool: its non-`NULL` slots, in index order. -/
def workers (pool : thread_pool) : List thread_state :=
  pool.threads.filterMap id

/-- The invariant `debugger_local ≤ debugger_global` for every worker. -/
def debugger_invariant (pool : thread_pool) : Bool :=
  (workers pool).all (fun t => decide (t.attach_debugger ≤ pool.attach_debugger))

/-! ## Auxiliary notions used in the statements -/

/-- What a loop body does to one slot of the worker array. -/
def slot_update (body : thread_state → thread_state × List Event)
    (o : Option thread_state) : Option thread_state :=
  o.map (fun t => (body t).1)

/-- The events a loop body emits for one slot of the worker array. -/
def slot_events (body : thread_state → thread_state × List Event)
    (o : Option thread_state) : List Event :=
  match o with
  | some t => (body t).2
  | none => []

/-- The `thread_join` calls of a trace, in order. -/
def join_calls (ev : List Event) : List Event :=
  ev.filter (fun e => match e with
    | Event.thread_join _ => true
    | _ => false)

/-- The `thread_cancel` calls of a trace, in order. -/
def cancel_calls (ev : List Event) : List Event :=
  ev.filter (fun e => match e with
    | Event.thread_cancel _ => true
    | _ => false)

/-- The destructor calls `lua_state_close` and `cleanup_state` of a trace, in
order. -/
def destructor_calls (ev : List Event) : List Event :=
  ev.filter (fun e => match e with
    | Event.lua_state_close _ => true
    | Event.cleanup_state _ => true
    | _ => false)

/-- The `luadebug_debugger_start` calls of a trace, in order. -/
def debugger_starts (ev : List Event) : List Event :=
  ev.filter (fun e => match e with
    | Event.luadebug_debugger_start _ _ => true
    | _ => false)

/-- The edges of the two lifecycle paths
`NotStarted → Running → {Finished | Error} → Joined` and
`Running → Canceled → Joined`. -/
def lifecycle_edge : lifecycle × lifecycle → Bool
  | (STATE_NOTSARTED, STATE_RUNNING) => true
  | (STATE_RUNNING, STATE_FINISHED) => true
  | (STATE_RUNNING, STATE_ERROR) => true
  | (STATE_FINISHED, STATE_JOINED) => true
  | (STATE_ERROR, STATE_JOINED) => true
  | (STATE_RUNNING, STATE_CANCELED) => true
  | (STATE_CANCELED, STATE_JOINED) => true
  | _ => false

/-- The scripting VMs held by the workers of a pool, in index order. -/
def vm_handles (pool : thread_pool) : List Nat :=
  (workers pool).filterMap (fun t => t.lua)

/-- The capture handles held by the workers of a pool, in index order. -/
def capture_handles (pool : thread_pool) : List Nat :=
  (workers pool).filterMap (fun t => t.capture)

/-- An event that is not a lifecycle write, or is one along an edge of the two
paths. -/
def edge_event : Event → Bool
  | Event.set_state _ old new => lifecycle_edge (old, new)
  | _ => true

/-- A pool whose array has exactly `count` slots and whose `single` flag is
`count == 1`, as `thread_pool_create` builds it. -/
def well_formed (pool : thread_pool) : Prop :=
  pool.count.toNat = pool.threads.length ∧ pool.single = decide (pool.count = 1)

instance (pool : thread_pool) : Decidable (well_formed pool) := by
  unfold well_formed
  infer_instance

/-- `n` further calls of `lua_state_run_extra` on the same worker. -/
def lua_state_run_extra_iter (pool : thread_pool) :
    Nat → thread_state → List Event → thread_state × List Event
  | 0, state, ev => (state, ev)
  | n + 1, state, ev =>
    lua_state_run_extra_iter pool n (lua_state_run_extra pool state).1
      (ev ++ (lua_state_run_extra pool state).2)

/-- Counters as `thread_pool_create` leaves them and as they stay until the
first `lua_state_run_extra`: every local counter is 0 and the global counter
lies between 0 and `1 + n`. -/
def counters_fresh (pool : thread_pool) (n : Nat) : Prop :=
  (∀ t, some t ∈ pool.threads → t.attach_debugger = 0)
  ∧ 0 ≤ pool.attach_debugger ∧ pool.attach_debugger ≤ 1 + (n : Int)

/-- Every local counter is at most the global counter, which lies between 0 and
`1 + n`. -/
def counters_ordered (pool : thread_pool) (n : Nat) : Prop :=
  (∀ t, some t ∈ pool.threads → t.attach_debugger ≤ pool.attach_debugger)
  ∧ 0 ≤ pool.attach_debugger ∧ pool.attach_debugger ≤ 1 + (n : Int)

/-- Whether a step is a call of `init_thread_lua_state`. -/
def is_init : debugger_step → Bool
  | debugger_step.init_thread_lua_state _ _ => true
  | _ => false

/-- Whether a step is a call of `lua_state_run_extra`. -/
def is_run_extra : debugger_step → Bool
  | debugger_step.lua_state_run_extra _ => true
  | _ => false

/-- Number of `thread_pool_attachdebugger` calls among the steps. -/
def attach_calls : List debugger_step → Nat
  | [] => 0
  | debugger_step.attachdebugger :: rest => attach_calls rest + 1
  | _ :: rest => attach_calls rest

/-- A script whose three loading steps succeed. -/
def script_ok : script_env :=
  { require_rule_ok := true, run_file_ok := true, rule_summary_ok := true }

/-- An environment in which every external call made for worker `i` succeeds and
the scripting engine makes no call. -/
def worker_env_ok (i : Nat) : worker_env :=
  { malloc_ok := true, lua_state_init := some (10 + i), init_state := some (20 + i),
    thread_create := some (30 + i), thread_sigmask_ok := true,
    timer_init_thread_ok := true, thread_setcanceltype_ok := true, script := script_ok,
    engine_thread_init := some (40 + i), worker_barrier_start_ok := true,
    controller_barrier_start_ok := true, error_write_seen := true,
    worker_barrier_sync_ok := true,
    main_loop := [] }

/-- An environment in which every external call of `thread_pool_create`
succeeds. -/
def create_env_ok : create_env :=
  { malloc_pool_ok := true, barrier_init_thread_sync_ok := true,
    barrier_init_thread_start_sync_ok := true, worker := worker_env_ok }

/-- A worker with a scripting VM, a capture handle and an engine handle. -/
def sample_worker (id : Nat) (st : lifecycle) (dbg : Int) : thread_state :=
  { thread_id := id, state := st, capture := some (20 + id), lua := some (10 + id),
    lua_function := 0, thread := 30 + id, canceled := false, attach_debugger := dbg,
    engine := some (40 + id) }

/-- A pool over the given workers. -/
def sample_pool (stop : Bool) (dbg : Int) (ws : List thread_state) : thread_pool :=
  { count := ws.length, single := decide ((ws.length : Int) = 1), stop := stop,
    attach_debugger := dbg, threads := ws.map some }

/-- A pool of two Running workers whose counters all equal `dbg`. -/
def running_pool (stop : Bool) (dbg : Int) : thread_pool :=
  sample_pool stop dbg [sample_worker 0 STATE_RUNNING dbg, sample_worker 1 STATE_RUNNING dbg]

/-! ## Loop lemmas -/

theorem visit_thread_step (body : thread_state → thread_state × List Event)
    (ts : List (Option thread_state)) (ev : List Event) (n : Nat) (hn : n < ts.length) :
    visit_thread body ((ts.take n).map (slot_update body) ++ ts.drop n, ev) n
      = ((ts.take (n + 1)).map (slot_update body) ++ ts.drop (n + 1),
          ev ++ slot_events body ts[n]) := by
  have hlen : ((ts.take n).map (slot_update body)).length = n := by
    simp [List.length_take, Nat.min_eq_left (Nat.le_of_lt hn)]
  have hget : ((ts.take n).map (slot_update body) ++ ts.drop n)[n]? = some ts[n] := by
    rw [List.getElem?_append_right (by omega), hlen, Nat.sub_self,
      List.drop_eq_getElem_cons hn]
    simp
  have htake : ts.take (n + 1) = ts.take n ++ [ts[n]] := by
    rw [List.take_succ, List.getElem?_eq_getElem hn]; rfl
  unfold visit_thread
  simp only [hget]
  cases hx : ts[n] with
  | none =>
    simp only [htake, hx, List.map_append, List.map_cons, List.map_nil, slot_update,
      slot_events, Option.map_none', List.append_nil, List.append_assoc]
    rw [List.drop_eq_getElem_cons hn, hx]
    rfl
  | some t =>
    simp only [htake, hx, List.map_append, List.map_cons, List.map_nil, slot_update,
      slot_events, Option.map_some', List.append_assoc]
    rw [List.set_append, if_neg (by omega), hlen, Nat.sub_self,
      List.drop_eq_getElem_cons hn]
    rfl

theorem foldl_visit_thread (body : thread_state → thread_state × List Event)
    (ts : List (Option thread_state)) (n : Nat) (hn : n ≤ ts.length) :
    (List.range n).foldl (visit_thread body) (ts, [])
      = ((ts.take n).map (slot_update body) ++ ts.drop n,
          (ts.take n).flatMap (slot_events body)) := by
  induction n with
  | zero => simp
  | succ k ih =>
    have hk : k < ts.length := hn
    rw [List.range_succ, List.foldl_append, ih (Nat.le_of_lt hk)]
    simp only [List.foldl_cons, List.foldl_nil]
    rw [visit_thread_step body ts _ k hk]
    have htake : ts.take (k + 1) = ts.take k ++ [ts[k]] := by
      rw [List.take_succ, List.getElem?_eq_getElem hk]; rfl
    rw [htake, List.flatMap_append]
    simp

/-- On an array with exactly `count` slots the loop maps its body over the
slots and concatenates the events slot by slot. -/
theorem for_each_thread_eq (count : Int) (body : thread_state → thread_state × List Event)
    (ts : List (Option thread_state)) (h : count.toNat = ts.length) :
    for_each_thread count body ts
      = (ts.map (slot_update body), ts.flatMap (slot_events body)) := by
  unfold for_each_thread
  rw [foldl_visit_thread body ts _ (Nat.le_of_eq h), h]
  simp

theorem thread_pool_wait_eq (pool : thread_pool)
    (h : pool.count.toNat = pool.threads.length) :
    thread_pool_wait pool
      = ({ pool with threads := pool.threads.map (slot_update thread_pool_wait_body) },
          pool.threads.flatMap (slot_events thread_pool_wait_body)) := by
  unfold thread_pool_wait
  rw [for_each_thread_eq _ _ _ h]

theorem thread_pool_cancel_eq (pool : thread_pool)
    (h : pool.count.toNat = pool.threads.length) (hs : pool.single = false) :
    thread_pool_cancel pool
      = ({ pool with threads := pool.threads.map (slot_update thread_pool_cancel_body) },
          pool.threads.flatMap (slot_events thread_pool_cancel_body)) := by
  unfold thread_pool_cancel
  rw [for_each_thread_eq _ _ _ h, hs]
  rfl

/-! ## Receiving while the pool is stopping -/

/-- C1 (defect in the code): with `pool->stop` set on entry and a capture that
still has a packet, `packet_receive_wrapper` sets `*stop` but does not return:
it calls `packet_receive`, hands the packet out and writes `*has_extra`. -/
theorem packet_receive_wrapper_stop_falls_through :
    packet_receive_wrapper
        (running_pool true 0)
        (sample_worker 0 STATE_RUNNING 0)
        { packet_receive_ret := 0, packet_receive_pkt := some 7,
          lua_state_has_interrupts := true, engine_thread_has_remote_launch := false }
        { pkt := none, has_extra := false, stop := false }
      = ({ pkt := some 7, has_extra := true, stop := true },
         [Event.engine_thread_update_status (some 40) THREAD_WAITING,
          Event.packet_receive (some 40),
          Event.engine_thread_update_status (some 40) THREAD_RUNNING]) := by
  decide

/-! ## Debugger counters -/

/-- C4 (defect in the code): `init_thread_lua_state` assigns the worker's
counter to the pool's counter. From global 1 and local 0 the debugger is started
with break-on-entry false, the local counter stays 0 and the global counter
drops to 0. This is what `thread_pool_create` does for one worker when its
`attach_debugger` argument is true: the pool it returns has both counters 0. -/
theorem init_thread_lua_state_overwrites_global :
    init_thread_lua_state (sample_pool false 1 [sample_worker 0 STATE_NOTSARTED 0])
        (sample_worker 0 STATE_NOTSARTED 0) script_ok
      = (true, sample_pool false 0 [sample_worker 0 STATE_NOTSARTED 0],
         [Event.luadebug_debugger_start (some 10) false])
    ∧ run_steps (sample_pool false 1 [sample_worker 0 STATE_NOTSARTED 0])
        [debugger_step.init_thread_lua_state 0 script_ok]
      = sample_pool false 0 [sample_worker 0 STATE_NOTSARTED 0]
    ∧ (thread_pool_create 1 true create_env_ok).1.map
        (fun p => (p.attach_debugger, (workers p).map (fun t => t.attach_debugger)))
      = some (0, [0])
    ∧ debugger_starts (thread_pool_create 1 true create_env_ok).2
      = [Event.luadebug_debugger_start (some 10) false] :=
  ⟨by decide, by decide, by decide, by decide⟩

theorem int32_wrap_succ (g : Int) (hlo : INT32_MIN ≤ g) (hhi : g < INT32_MAX) :
    int32_wrap (g + 1) = g + 1 := by
  unfold INT32_MIN at hlo
  unfold INT32_MAX at hhi
  unfold int32_wrap
  omega

theorem lua_state_run_extra_iter_quiet (pool : thread_pool) (n : Nat) :
    ∀ (state : thread_state) (ev : List Event),
      state.attach_debugger = pool.attach_debugger →
      debugger_starts (lua_state_run_extra_iter pool n state ev).2 = debugger_starts ev := by
  induction n with
  | zero => intro state ev _; rfl
  | succ k ih =>
    intro state ev h
    have hstep : lua_state_run_extra pool state
        = (state, [Event.lua_state_runinterrupt state.lua,
            Event.engine_thread_check_remote_launch state.engine]) := by
      unfold lua_state_run_extra
      simp [h]
    simp only [lua_state_run_extra_iter, hstep]
    rw [ih state _ h]
    simp [debugger_starts]

/-- C6: a worker whose local counter equals the global counter (an `int32`
value below `INT32_MAX`) sees one `thread_pool_attachdebugger` at its next
successful `packet_receive_wrapper` as `has_extra = true`; the following
`lua_state_run_extra` starts the debugger exactly once, with break-on-entry
true, and makes the local counter equal to the global one; any number of
further `lua_state_run_extra` calls start no debugger. -/
theorem attach_observed_exactly_once (pool : thread_pool) (state : thread_state)
    (env : receive_env) (out : receive_out) (n : Nat)
    (heq : state.attach_debugger = pool.attach_debugger)
    (hlo : INT32_MIN ≤ pool.attach_debugger) (hhi : pool.attach_debugger < INT32_MAX)
    (hok : env.packet_receive_ret = 0) :
    (packet_receive_wrapper (thread_pool_attachdebugger pool) state env out).1.has_extra = true
    ∧ debugger_starts (lua_state_run_extra (thread_pool_attachdebugger pool) state).2
        = [Event.luadebug_debugger_start state.lua true]
    ∧ (lua_state_run_extra (thread_pool_attachdebugger pool) state).1.attach_debugger
        = (thread_pool_attachdebugger pool).attach_debugger
    ∧ debugger_starts (lua_state_run_extra_iter (thread_pool_attachdebugger pool) n
          (lua_state_run_extra (thread_pool_attachdebugger pool) state).1 []).2 = [] := by
  have hg : (thread_pool_attachdebugger pool).attach_debugger = pool.attach_debugger + 1 := by
    simp only [thread_pool_attachdebugger]
    exact int32_wrap_succ _ hlo hhi
  have hgt : (thread_pool_attachdebugger pool).attach_debugger > state.attach_debugger := by
    rw [hg, heq]; omega
  have hextra : lua_state_run_extra (thread_pool_attachdebugger pool) state
      = ({ state with attach_debugger := (thread_pool_attachdebugger pool).attach_debugger },
         [Event.lua_state_runinterrupt state.lua,
          Event.engine_thread_check_remote_launch state.engine]
          ++ [Event.luadebug_debugger_start state.lua true]) := by
    unfold lua_state_run_extra
    simp only [if_pos hgt]
  refine ⟨?_, ?_, ?_, ?_⟩
  · unfold packet_receive_wrapper
    simp [hok, hgt]
  · rw [hextra]
    simp [debugger_starts]
  · rw [hextra]
  · rw [lua_state_run_extra_iter_quiet _ n _ [] (by rw [hextra])]
    rfl

theorem attach_observed_exactly_once_witness :
    (packet_receive_wrapper
        (thread_pool_attachdebugger (running_pool false 3))
        (sample_worker 0 STATE_RUNNING 3)
        { packet_receive_ret := 0, packet_receive_pkt := some 7,
          lua_state_has_interrupts := false, engine_thread_has_remote_launch := false }
        { pkt := none, has_extra := false, stop := false }).1.has_extra = true
    ∧ debugger_starts (lua_state_run_extra
        (thread_pool_attachdebugger (running_pool false 3))
        (sample_worker 0 STATE_RUNNING 3)).2
        = [Event.luadebug_debugger_start (sample_worker 0 STATE_RUNNING 3).lua true]
    ∧ (lua_state_run_extra
        (thread_pool_attachdebugger (running_pool false 3))
        (sample_worker 0 STATE_RUNNING 3)).1.attach_debugger
        = (thread_pool_attachdebugger
            (running_pool false 3)).attach_debugger
    ∧ debugger_starts (lua_state_run_extra_iter
        (thread_pool_attachdebugger (running_pool false 3)) 2
        (lua_state_run_extra
          (thread_pool_attachdebugger (running_pool false 3))
          (sample_worker 0 STATE_RUNNING 3)).1 []).2 = [] :=
  attach_observed_exactly_once (running_pool false 3)
    (sample_worker 0 STATE_RUNNING 3)
    { packet_receive_ret := 0, packet_receive_pkt := some 7,
      lua_state_has_interrupts := false, engine_thread_has_remote_launch := false }
    { pkt := none, has_extra := false, stop := false } 2
    (by decide) (by decide) (by decide) (by decide)

/-! ## Stop requests -/

theorem thread_pool_cancel_stop (pool : thread_pool) :
    (thread_pool_cancel pool).1.stop = pool.stop := by
  unfold thread_pool_cancel
  split <;> rfl

/-- C2 (as stated, refuted): a hard stop on a single-worker pool whose stop flag
is clear is refused, returns false, and leaves the stop flag set. -/
theorem thread_pool_stop_refused_sets_stop :
    (sample_pool false 0 [sample_worker 0 STATE_NOTSARTED 0]).count = 1
    ∧ (sample_pool false 0 [sample_worker 0 STATE_NOTSARTED 0]).stop = false
    ∧ (thread_pool_stop (sample_pool false 0 [sample_worker 0 STATE_NOTSARTED 0]) 2).1 = false
    ∧ (thread_pool_stop (sample_pool false 0 [sample_worker 0 STATE_NOTSARTED 0]) 2).2.1.stop
        = true := by
  decide

/-- C2 (amended): a refused stop request, that is `force = 2` on a single-worker
pool or a `force` other than 1 and 2 on any pool, returns false, makes no
external call and changes nothing but the stop flag, which it sets: the debugger
counter and every worker record, lifecycle state included, stay as they were. -/
theorem thread_pool_stop_refused (pool : thread_pool) (force : Int)
    (hsingle : pool.single = decide (pool.count = 1))
    (hrefused : (force = 2 ∧ pool.count = 1) ∨ (force ≠ 1 ∧ force ≠ 2)) :
    thread_pool_stop pool force = (false, { pool with stop := true }, []) := by
  unfold thread_pool_stop
  rcases hrefused with ⟨h2, h1⟩ | ⟨h1, h2⟩
  · subst h2
    simp [hsingle, h1]
  · simp [h1, h2]

theorem thread_pool_stop_refused_witness :
    thread_pool_stop (sample_pool false 5 [sample_worker 0 STATE_NOTSARTED 2]) 2
      = (false, { sample_pool false 5 [sample_worker 0 STATE_NOTSARTED 2] with stop := true },
          []) :=
  thread_pool_stop_refused (sample_pool false 5 [sample_worker 0 STATE_NOTSARTED 2]) 2
    (by decide) (Or.inl (by decide))

theorem cancel_body_map (ts : List (Option thread_state)) :
    ts.map (slot_update thread_pool_cancel_body)
      = ts.map (Option.map (fun t =>
          if t.state = STATE_RUNNING then { t with state := STATE_CANCELED } else t)) := by
  apply List.map_congr_left
  intro o _
  cases o with
  | none => rfl
  | some t =>
    simp only [slot_update, thread_pool_cancel_body, Option.map_some']
    split <;> rfl

theorem cancel_body_calls (ts : List (Option thread_state)) :
    cancel_calls (ts.flatMap (slot_events thread_pool_cancel_body))
      = ((ts.filterMap id).filter (fun t => decide (t.state = STATE_RUNNING))).map
          (fun t => Event.thread_cancel t.thread) := by
  induction ts with
  | nil => rfl
  | cons o rest ih =>
    unfold cancel_calls at ih ⊢
    cases o with
    | none => simpa [slot_events] using ih
    | some t =>
      by_cases h : t.state = STATE_RUNNING
      · simp [slot_events, thread_pool_cancel_body, h, ih]
      · simp [slot_events, thread_pool_cancel_body, h, ih]

theorem thread_pool_stop_one (pool : thread_pool) :
    thread_pool_stop pool 1
      = (true,
         { pool with
            stop := true,
            threads := (for_each_thread pool.count thread_pool_stop_body pool.threads).1 },
         (for_each_thread pool.count thread_pool_stop_body pool.threads).2) := by
  unfold thread_pool_stop
  rw [if_pos rfl]

theorem thread_pool_stop_two (pool : thread_pool) :
    thread_pool_stop pool 2
      = if pool.single = false then
          (false, (thread_pool_cancel { pool with stop := true }).1,
            (thread_pool_cancel { pool with stop := true }).2)
        else (false, { pool with stop := true }, []) := by
  unfold thread_pool_stop
  rw [if_neg (by decide), if_pos rfl]
  cases pool.single <;> rfl

theorem thread_pool_stop_other (pool : thread_pool) (force : Int)
    (h1 : force ≠ 1) (h2 : force ≠ 2) :
    thread_pool_stop pool force = (false, { pool with stop := true }, []) := by
  unfold thread_pool_stop
  rw [if_neg h1, if_neg h2]

/-- C10: `thread_pool_stop` returns true exactly when `force` is 1, and every call
leaves the stop flag set. A hard stop (`force = 2`) on a multi-worker pool
returns false although it cancels: it issues one `thread_cancel` per Running
worker, marks exactly those workers Canceled and leaves the others as they
were. -/
theorem thread_pool_stop_result (pool : thread_pool) (force : Int) :
    ((thread_pool_stop pool force).1 = true ↔ force = 1)
    ∧ (thread_pool_stop pool force).2.1.stop = true
    ∧ (well_formed pool → 1 < pool.count → force = 2 →
        (thread_pool_stop pool force).1 = false
        ∧ (thread_pool_stop pool force).2.1.threads
            = pool.threads.map (Option.map (fun t =>
                if t.state = STATE_RUNNING then { t with state := STATE_CANCELED } else t))
        ∧ cancel_calls (thread_pool_stop pool force).2.2
            = ((workers pool).filter (fun t => decide (t.state = STATE_RUNNING))).map
                (fun t => Event.thread_cancel t.thread)) := by
  refine ⟨?_, ?_, ?_⟩
  · by_cases h1 : force = 1
    · subst h1
      rw [thread_pool_stop_one]
      simp
    · by_cases h2 : force = 2
      · subst h2
        rw [thread_pool_stop_two]
        split <;> simp
      · rw [thread_pool_stop_other pool force h1 h2]
        simp [h1]
  · by_cases h1 : force = 1
    · subst h1
      rw [thread_pool_stop_one]
    · by_cases h2 : force = 2
      · subst h2
        rw [thread_pool_stop_two]
        split
        · exact thread_pool_cancel_stop _
        · rfl
      · rw [thread_pool_stop_other pool force h1 h2]
  · intro hwf hmulti h2
    have hs : pool.single = false := by
      rw [hwf.2]
      simp
      omega
    have hc := thread_pool_cancel_eq { pool with stop := true } hwf.1 hs
    subst h2
    rw [thread_pool_stop_two, if_pos hs, hc]
    refine ⟨rfl, ?_, ?_⟩
    · exact cancel_body_map pool.threads
    · exact cancel_body_calls pool.threads

theorem thread_pool_stop_result_witness :
    (thread_pool_stop (sample_pool false 0
        [sample_worker 0 STATE_RUNNING 0, sample_worker 1 STATE_FINISHED 0]) 2).1 = false
    ∧ (thread_pool_stop (sample_pool false 0
        [sample_worker 0 STATE_RUNNING 0, sample_worker 1 STATE_FINISHED 0]) 2).2.1.threads
        = (sample_pool false 0
            [sample_worker 0 STATE_RUNNING 0, sample_worker 1 STATE_FINISHED 0]).threads.map
            (Option.map (fun t =>
              if t.state = STATE_RUNNING then { t with state := STATE_CANCELED } else t))
    ∧ cancel_calls (thread_pool_stop (sample_pool false 0
        [sample_worker 0 STATE_RUNNING 0, sample_worker 1 STATE_FINISHED 0]) 2).2.2
        = ((workers (sample_pool false 0
            [sample_worker 0 STATE_RUNNING 0, sample_worker 1 STATE_FINISHED 0])).filter
              (fun t => decide (t.state = STATE_RUNNING))).map
            (fun t => Event.thread_cancel t.thread) :=
  (thread_pool_stop_result (sample_pool false 0
      [sample_worker 0 STATE_RUNNING 0, sample_worker 1 STATE_FINISHED 0]) 2).2.2
    ⟨by decide, by decide⟩ (by decide) rfl

/-! ## Joining -/

theorem wait_body_map (ts : List (Option thread_state)) :
    ts.map (slot_update thread_pool_wait_body)
      = ts.map (Option.map (fun t =>
          if t.state ≠ STATE_NOTSARTED ∧ t.state ≠ STATE_JOINED
          then { t with state := STATE_JOINED } else t)) := by
  apply List.map_congr_left
  intro o _
  cases o with
  | none => rfl
  | some t =>
    simp only [slot_update, thread_pool_wait_body, Option.map_some']
    split <;> rfl

theorem wait_body_calls (ts : List (Option thread_state)) :
    join_calls (ts.flatMap (slot_events thread_pool_wait_body))
      = ((ts.filterMap id).filter (fun t =>
            decide (t.state ≠ STATE_NOTSARTED ∧ t.state ≠ STATE_JOINED))).map
          (fun t => Event.thread_join t.thread) := by
  induction ts with
  | nil => rfl
  | cons o rest ih =>
    unfold join_calls at ih ⊢
    cases o with
    | none => simpa [slot_events] using ih
    | some t =>
      by_cases h : t.state ≠ STATE_NOTSARTED ∧ t.state ≠ STATE_JOINED
      · simp [slot_events, thread_pool_wait_body, h, ih]
      · simp [slot_events, thread_pool_wait_body, h, ih]

theorem wait_body_idle (ts : List (Option thread_state)) :
    (ts.map (slot_update thread_pool_wait_body)).flatMap (slot_events thread_pool_wait_body)
      = [] := by
  induction ts with
  | nil => rfl
  | cons o rest ih =>
    cases o with
    | none => simpa [slot_events, slot_update] using ih
    | some t =>
      by_cases h : t.state ≠ STATE_NOTSARTED ∧ t.state ≠ STATE_JOINED
      · simpa [slot_events, slot_update, thread_pool_wait_body, h] using ih
      · have h2 : ¬ (¬ t.state = STATE_NOTSARTED ∧ ¬ t.state = STATE_JOINED) := h
        simpa [slot_events, slot_update, thread_pool_wait_body, h2] using ih

/-- C8: on a pool whose array has `count` slots, `thread_pool_wait` issues one
`thread_join` for each worker that is neither NotStarted nor Joined, in index
order, and no other join; it sets exactly those workers to Joined and leaves
every other worker and the rest of the pool as they were; a second
`thread_pool_wait` makes no call at all. -/
theorem thread_pool_wait_joins_once (pool : thread_pool)
    (hcount : pool.count.toNat = pool.threads.length) :
    join_calls (thread_pool_wait pool).2
        = ((workers pool).filter (fun t =>
              decide (t.state ≠ STATE_NOTSARTED ∧ t.state ≠ STATE_JOINED))).map
            (fun t => Event.thread_join t.thread)
    ∧ (thread_pool_wait pool).1
        = { pool with threads := pool.threads.map (Option.map (fun t =>
              if t.state ≠ STATE_NOTSARTED ∧ t.state ≠ STATE_JOINED
              then { t with state := STATE_JOINED } else t)) }
    ∧ (thread_pool_wait (thread_pool_wait pool).1).2 = [] := by
  have h1 := thread_pool_wait_eq pool hcount
  have hcount2 : (thread_pool_wait pool).1.count.toNat
      = (thread_pool_wait pool).1.threads.length := by
    rw [h1]
    simpa using hcount
  have h2 := thread_pool_wait_eq _ hcount2
  refine ⟨?_, ?_, ?_⟩
  · rw [h1]
    exact wait_body_calls pool.threads
  · rw [h1]
    simp only [wait_body_map]
  · rw [h2, h1]
    exact wait_body_idle pool.threads

theorem thread_pool_wait_joins_once_witness :
    join_calls (thread_pool_wait (sample_pool false 0
        [sample_worker 0 STATE_FINISHED 0, sample_worker 1 STATE_JOINED 0,
         sample_worker 2 STATE_CANCELED 0])).2
      = [Event.thread_join 30, Event.thread_join 32]
    ∧ (thread_pool_wait (thread_pool_wait (sample_pool false 0
        [sample_worker 0 STATE_FINISHED 0, sample_worker 1 STATE_JOINED 0,
         sample_worker 2 STATE_CANCELED 0])).1).2 = [] :=
  ⟨(thread_pool_wait_joins_once (sample_pool false 0
      [sample_worker 0 STATE_FINISHED 0, sample_worker 1 STATE_JOINED 0,
       sample_worker 2 STATE_CANCELED 0]) (by decide)).1,
   (thread_pool_wait_joins_once (sample_pool false 0
      [sample_worker 0 STATE_FINISHED 0, sample_worker 1 STATE_JOINED 0,
       sample_worker 2 STATE_CANCELED 0]) (by decide)).2.2⟩

/-! ## Teardown -/

theorem cleanup_lua_pass_calls (ts : List (Option thread_state)) :
    destructor_calls (ts.flatMap (slot_events cleanup_thread_state_lua))
      = ((ts.filterMap id).filterMap (fun t => t.lua)).map Event.lua_state_close := by
  induction ts with
  | nil => rfl
  | cons o rest ih =>
    unfold destructor_calls at ih ⊢
    cases o with
    | none => simpa [slot_events] using ih
    | some t =>
      cases he : t.engine <;> cases hl : t.lua <;>
        simp [slot_events, cleanup_thread_state_lua, he, hl, ih]

theorem cleanup_capture_pass_calls (ts : List (Option thread_state)) :
    destructor_calls ((ts.map (slot_update cleanup_thread_state_lua)).flatMap
        (slot_events cleanup_thread_state))
      = ((ts.filterMap id).filterMap (fun t => t.capture)).map Event.cleanup_state := by
  induction ts with
  | nil => rfl
  | cons o rest ih =>
    unfold destructor_calls at ih ⊢
    cases o with
    | none => simpa [slot_events, slot_update] using ih
    | some t =>
      cases he : t.engine <;> cases hl : t.lua <;> cases hc : t.capture <;>
        simp [slot_events, slot_update, cleanup_thread_state, cleanup_thread_state_lua,
          he, hl, hc, ih]

theorem cancel_pass_no_destructor (ts : List (Option thread_state)) :
    destructor_calls (ts.flatMap (slot_events thread_pool_cancel_body)) = [] := by
  induction ts with
  | nil => rfl
  | cons o rest ih =>
    unfold destructor_calls at ih ⊢
    cases o with
    | none => simpa [slot_events] using ih
    | some t =>
      by_cases h : t.state = STATE_RUNNING
      · simp [slot_events, thread_pool_cancel_body, h, ih]
      · simp [slot_events, thread_pool_cancel_body, h, ih]

theorem cancel_body_keeps (t : thread_state) :
    (thread_pool_cancel_body t).1.lua = t.lua
    ∧ (thread_pool_cancel_body t).1.capture = t.capture := by
  unfold thread_pool_cancel_body
  split <;> exact ⟨rfl, rfl⟩

theorem cancel_pass_keeps_vms (ts : List (Option thread_state)) :
    ((ts.map (slot_update thread_pool_cancel_body)).filterMap id).filterMap (fun t => t.lua)
      = (ts.filterMap id).filterMap (fun t => t.lua) := by
  induction ts with
  | nil => rfl
  | cons o rest ih =>
    cases o with
    | none =>
      simp only [List.map_cons, slot_update, Option.map_none', List.filterMap_cons, id]
      exact ih
    | some t =>
      simp only [List.map_cons, slot_update, Option.map_some', List.filterMap_cons, id]
      rw [(cancel_body_keeps t).1, ih]

theorem cancel_pass_keeps_captures (ts : List (Option thread_state)) :
    ((ts.map (slot_update thread_pool_cancel_body)).filterMap id).filterMap
        (fun t => t.capture)
      = (ts.filterMap id).filterMap (fun t => t.capture) := by
  induction ts with
  | nil => rfl
  | cons o rest ih =>
    cases o with
    | none =>
      simp only [List.map_cons, slot_update, Option.map_none', List.filterMap_cons, id]
      exact ih
    | some t =>
      simp only [List.map_cons, slot_update, Option.map_some', List.filterMap_cons, id]
      rw [(cancel_body_keeps t).2, ih]

theorem destructor_calls_append (a b : List Event) :
    destructor_calls (a ++ b) = destructor_calls a ++ destructor_calls b := by
  simp [destructor_calls]

/-- The destructor calls of `thread_pool_cleanup`, for an array of `count`
slots: one `lua_state_close` per VM, then one `cleanup_state` per capture
handle. -/
theorem thread_pool_cleanup_calls (pool : thread_pool)
    (hcount : pool.count.toNat = pool.threads.length) :
    destructor_calls (thread_pool_cleanup pool)
      = (vm_handles pool).map Event.lua_state_close
        ++ (capture_handles pool).map Event.cleanup_state := by
  unfold thread_pool_cleanup vm_handles capture_handles workers
  cases hs : pool.single with
  | true =>
    simp only [Bool.not_true, if_false, Bool.false_eq_true]
    rw [for_each_thread_eq _ _ _ hcount]
    have hlen : pool.count.toNat
        = (pool.threads.map (slot_update cleanup_thread_state_lua)).length := by
      simpa using hcount
    rw [for_each_thread_eq _ _ _ hlen]
    simp only [destructor_calls_append, cleanup_lua_pass_calls, cleanup_capture_pass_calls]
    simp [destructor_calls]
  | false =>
    simp only [Bool.not_false, if_true]
    rw [thread_pool_cancel_eq pool hcount hs]
    have hlen1 : pool.count.toNat
        = (pool.threads.map (slot_update thread_pool_cancel_body)).length := by
      simpa using hcount
    simp only []
    rw [for_each_thread_eq _ _ _ hlen1]
    have hlen2 : pool.count.toNat
        = ((pool.threads.map (slot_update thread_pool_cancel_body)).map
            (slot_update cleanup_thread_state_lua)).length := by
      simpa using hcount
    rw [for_each_thread_eq _ _ _ hlen2]
    simp only [destructor_calls_append, cleanup_lua_pass_calls, cleanup_capture_pass_calls,
      cancel_pass_no_destructor, cancel_pass_keeps_vms, cancel_pass_keeps_captures]
    simp [destructor_calls]

theorem map_eq_filterMap_some (ws : List thread_state) (f : thread_state → Option Nat)
    (h : ∀ t ∈ ws, (f t).isSome = true) :
    ws.map f = (ws.filterMap f).map some := by
  induction ws with
  | nil => rfl
  | cons t rest ih =>
    have ht := h t (List.mem_cons_self _ _)
    have hr := ih (fun u hu => h u (List.mem_cons_of_mem _ hu))
    cases hf : f t with
    | none => rw [hf] at ht; cases ht
    | some v => simp [List.filterMap_cons, hf, hr]

theorem count_lua_state_close (ev : List Event) (vms caps : List Nat) (l : Nat)
    (h : destructor_calls ev
      = vms.map Event.lua_state_close ++ caps.map Event.cleanup_state) :
    ev.count (Event.lua_state_close l) = vms.count l := by
  have h1 : (destructor_calls ev).count (Event.lua_state_close l)
      = ev.count (Event.lua_state_close l) := by
    unfold destructor_calls
    exact List.count_filter rfl
  have hinj : Function.Injective Event.lua_state_close := by
    intro a b hab
    cases hab
    rfl
  have h0 : (caps.map Event.cleanup_state).count (Event.lua_state_close l) = 0 := by
    apply List.count_eq_zero_of_not_mem
    intro hm
    rcases List.mem_map.mp hm with ⟨c, _, hc⟩
    cases hc
  rw [← h1, h, List.count_append, h0, List.count_map_of_injective _ _ hinj]
  rfl

theorem count_cleanup_state (ev : List Event) (vms caps : List Nat) (c : Nat)
    (h : destructor_calls ev
      = vms.map Event.lua_state_close ++ caps.map Event.cleanup_state) :
    ev.count (Event.cleanup_state c) = caps.count c := by
  have h1 : (destructor_calls ev).count (Event.cleanup_state c)
      = ev.count (Event.cleanup_state c) := by
    unfold destructor_calls
    exact List.count_filter rfl
  have hinj : Function.Injective Event.cleanup_state := by
    intro a b hab
    cases hab
    rfl
  have h0 : (vms.map Event.lua_state_close).count (Event.cleanup_state c) = 0 := by
    apply List.count_eq_zero_of_not_mem
    intro hm
    rcases List.mem_map.mp hm with ⟨v, _, hv⟩
    cases hv
  rw [← h1, h, List.count_append, h0, List.count_map_of_injective _ _ hinj]
  simp

/-- C3: on a pool whose array has `count` slots and in which every worker holds
a scripting VM and a capture handle, the destructor calls of
`thread_pool_cleanup` are: `lua_state_close` on the VM of every worker, in index
order, and only then `cleanup_state` on the capture handle of every worker, in
index order. With pairwise distinct VMs (capture handles), each VM (capture
handle) is the argument of exactly one destructor call in the whole trace. -/
theorem thread_pool_cleanup_two_pass (pool : thread_pool)
    (hcount : pool.count.toNat = pool.threads.length)
    (hown : ∀ t ∈ workers pool, t.lua.isSome = true ∧ t.capture.isSome = true) :
    destructor_calls (thread_pool_cleanup pool)
        = (vm_handles pool).map Event.lua_state_close
          ++ (capture_handles pool).map Event.cleanup_state
    ∧ (workers pool).map (fun t => t.lua) = (vm_handles pool).map some
    ∧ (workers pool).map (fun t => t.capture) = (capture_handles pool).map some
    ∧ ((vm_handles pool).Nodup → ∀ l ∈ vm_handles pool,
        (thread_pool_cleanup pool).count (Event.lua_state_close l) = 1)
    ∧ ((capture_handles pool).Nodup → ∀ c ∈ capture_handles pool,
        (thread_pool_cleanup pool).count (Event.cleanup_state c) = 1) := by
  have hcalls := thread_pool_cleanup_calls pool hcount
  refine ⟨hcalls, ?_, ?_, ?_, ?_⟩
  · exact map_eq_filterMap_some _ _ (fun t ht => (hown t ht).1)
  · exact map_eq_filterMap_some _ _ (fun t ht => (hown t ht).2)
  · intro hnd l hl
    rw [count_lua_state_close _ _ _ l hcalls]
    exact List.count_eq_one_of_mem hnd hl
  · intro hnd c hc
    rw [count_cleanup_state _ _ _ c hcalls]
    exact List.count_eq_one_of_mem hnd hc

theorem thread_pool_cleanup_two_pass_witness :
    destructor_calls (thread_pool_cleanup (sample_pool false 0
        [sample_worker 0 STATE_RUNNING 0, sample_worker 1 STATE_FINISHED 0]))
      = [Event.lua_state_close 10, Event.lua_state_close 11,
         Event.cleanup_state 20, Event.cleanup_state 21]
    ∧ (thread_pool_cleanup (sample_pool false 0
        [sample_worker 0 STATE_RUNNING 0, sample_worker 1 STATE_FINISHED 0])).count
          (Event.lua_state_close 11) = 1 :=
  ⟨(thread_pool_cleanup_two_pass (sample_pool false 0
      [sample_worker 0 STATE_RUNNING 0, sample_worker 1 STATE_FINISHED 0])
      (by decide) (by decide)).1,
   (thread_pool_cleanup_two_pass (sample_pool false 0
      [sample_worker 0 STATE_RUNNING 0, sample_worker 1 STATE_FINISHED 0])
      (by decide) (by decide)).2.2.2.1 (by decide) 11 (by decide)⟩

/-! ## Lifecycle -/

theorem init_thread_lua_state_edges (pool : thread_pool) (state : thread_state)
    (env : script_env) :
    (init_thread_lua_state pool state env).2.2.all edge_event = true := by
  unfold init_thread_lua_state
  split_ifs <;> rfl

theorem thread_main_loop_abort_edges (pool : thread_pool) (state : thread_state)
    (ev : List Event) (hrun : state.state = STATE_RUNNING)
    (hev : ev.all edge_event = true) :
    (thread_main_loop_abort pool state ev).2.2.2.all edge_event = true := by
  unfold thread_main_loop_abort
  simp only [List.all_append, Bool.and_eq_true]
  refine ⟨hev, ?_⟩
  simp [edge_event, hrun, lifecycle_edge]

theorem thread_main_loop_setup_edges (pool : thread_pool) (state : thread_state)
    (env : worker_env) (hrun : state.state = STATE_RUNNING) :
    (thread_main_loop_setup pool state env).2.2.2.all edge_event = true := by
  have ha := thread_main_loop_abort_edges pool state [] hrun rfl
  have hi := init_thread_lua_state_edges pool state env.script
  have hb := thread_main_loop_abort_edges (init_thread_lua_state pool state env.script).2.1
    state _ hrun hi
  cases hs : pool.single <;> cases h1 : env.thread_sigmask_ok <;>
    cases h2 : env.timer_init_thread_ok <;> cases h3 : env.thread_setcanceltype_ok <;>
    cases h4 : (init_thread_lua_state pool state env.script).1 <;>
    simp only [thread_main_loop_setup, hs, h1, h2, h3, h4, Bool.not_true, Bool.not_false,
      if_true, if_false, Bool.false_eq_true] <;>
    first | exact ha | exact hb | exact hi | rfl

theorem thread_main_loop_setup_go (pool : thread_pool) (state : thread_state)
    (env : worker_env) (h : (thread_main_loop_setup pool state env).1 = true) :
    (thread_main_loop_setup pool state env).2.2.1 = state := by
  revert h
  cases hs : pool.single <;> cases h1 : env.thread_sigmask_ok <;>
    cases h2 : env.timer_init_thread_ok <;> cases h3 : env.thread_setcanceltype_ok <;>
    cases h4 : (init_thread_lua_state pool state env.script).1 <;>
    simp only [thread_main_loop_setup, thread_main_loop_abort, hs, h1, h2, h3, h4,
      Bool.not_true, Bool.not_false, if_true, if_false, Bool.false_eq_true] <;>
    first | rfl | trivial | (intro h; cases h)

theorem thread_main_loop_engine_edges (pool : thread_pool) (state : thread_state)
    (env : worker_env) (ev : List Event) (hrun : state.state = STATE_RUNNING)
    (hev : ev.all edge_event = true) :
    (thread_main_loop_engine pool state env ev).2.2.2.all edge_event = true := by
  unfold thread_main_loop_engine
  split_ifs <;>
    simp [List.all_append, hev, edge_event, hrun, lifecycle_edge]

theorem thread_main_loop_engine_go (pool : thread_pool) (state : thread_state)
    (env : worker_env) (ev : List Event)
    (h : (thread_main_loop_engine pool state env ev).1 = true) :
    (thread_main_loop_engine pool state env ev).2.2.1.state = state.state := by
  revert h
  cases hs : pool.single <;> cases h1 : env.worker_barrier_start_ok <;>
    simp only [thread_main_loop_engine, hs, h1, Bool.not_true, Bool.not_false, if_true,
      if_false, Bool.false_eq_true] <;>
    first | rfl | trivial | (intro h; cases h)

theorem thread_main_loop_startup_edges (pool : thread_pool) (state : thread_state)
    (env : worker_env) (hrun : state.state = STATE_RUNNING) :
    (thread_main_loop_startup pool state env).2.2.2.all edge_event = true := by
  have hs := thread_main_loop_setup_edges pool state env hrun
  unfold thread_main_loop_startup
  cases hgo : (thread_main_loop_setup pool state env).1 with
  | false => simpa [hgo] using hs
  | true =>
    simp only [hgo, Bool.not_true, Bool.false_eq_true, if_false]
    apply thread_main_loop_engine_edges _ _ _ _ _ hs
    rw [thread_main_loop_setup_go pool state env hgo]
    exact hrun

theorem thread_main_loop_startup_go (pool : thread_pool) (state : thread_state)
    (env : worker_env) (h : (thread_main_loop_startup pool state env).1 = true) :
    (thread_main_loop_startup pool state env).2.2.1.state = state.state := by
  unfold thread_main_loop_startup at h ⊢
  cases hgo : (thread_main_loop_setup pool state env).1 with
  | false => simp [hgo] at h
  | true =>
    simp only [hgo, Bool.not_true, Bool.false_eq_true, if_false] at h ⊢
    rw [thread_main_loop_engine_go _ _ _ _ h,
      thread_main_loop_setup_go pool state env hgo]

theorem lua_start_main_loop_keeps (pool : thread_pool) (calls : List engine_call) :
    ∀ (state : thread_state) (ev : List Event), ev.all edge_event = true →
      (lua_start_main_loop pool calls state ev).1.state = state.state
      ∧ (lua_start_main_loop pool calls state ev).1.thread_id = state.thread_id
      ∧ (lua_start_main_loop pool calls state ev).2.all edge_event = true := by
  induction calls with
  | nil => intro state ev hev; exact ⟨rfl, rfl, hev⟩
  | cons c rest ih =>
    intro state ev hev
    cases c with
    | receive env =>
      simp only [lua_start_main_loop]
      apply ih
      simp only [List.all_append, Bool.and_eq_true]
      refine ⟨hev, ?_⟩
      unfold packet_receive_wrapper
      split_ifs <;> rfl
    | run_extra =>
      simp only [lua_start_main_loop]
      have hx : (lua_state_run_extra pool state).1.state = state.state
          ∧ (lua_state_run_extra pool state).1.thread_id = state.thread_id
          ∧ (lua_state_run_extra pool state).2.all edge_event = true := by
        unfold lua_state_run_extra
        split_ifs <;> exact ⟨rfl, rfl, rfl⟩
      have hr := ih (lua_state_run_extra pool state).1
        (ev ++ (lua_state_run_extra pool state).2)
        (by simp only [List.all_append, Bool.and_eq_true]; exact ⟨hev, hx.2.2⟩)
      exact ⟨hr.1.trans hx.1, hr.2.1.trans hx.2.1, hr.2.2⟩

theorem thread_main_loop_run_edges (pool : thread_pool) (state : thread_state)
    (env : worker_env) (hrun : state.state = STATE_RUNNING) :
    (thread_main_loop_run pool state env).2.all edge_event = true := by
  have hfin : ∀ ev0 : List Event, ev0.all edge_event = true →
      ((lua_start_main_loop pool env.main_loop state ev0).2
        ++ [Event.set_state (lua_start_main_loop pool env.main_loop state ev0).1.thread_id
              (lua_start_main_loop pool env.main_loop state ev0).1.state STATE_FINISHED,
            Event.engine_thread_update_status
              (lua_start_main_loop pool env.main_loop state ev0).1.engine
              THREAD_STOPPED]).all edge_event = true := by
    intro ev0 h0
    have hk := lua_start_main_loop_keeps pool env.main_loop state ev0 h0
    simp only [List.all_append, Bool.and_eq_true]
    refine ⟨hk.2.2, ?_⟩
    simp [edge_event, hk.1, hrun, lifecycle_edge]
  cases hs : pool.single <;> cases h1 : env.worker_barrier_sync_ok <;>
    simp only [thread_main_loop_run, hs, h1, Bool.not_true, Bool.not_false, if_true,
      if_false, Bool.false_eq_true, Bool.and_true, Bool.and_false, Bool.true_and,
      Bool.false_and]
  · simp [edge_event, hrun, lifecycle_edge]
  · exact hfin _ rfl
  · exact hfin _ rfl
  · exact hfin _ rfl

theorem thread_main_loop_edges (pool : thread_pool) (state : thread_state)
    (env : worker_env) (hrun : state.state = STATE_RUNNING) :
    (thread_main_loop pool state env).2.2.all edge_event = true := by
  have hs := thread_main_loop_startup_edges pool state env hrun
  unfold thread_main_loop
  cases hgo : (thread_main_loop_startup pool state env).1 with
  | false => simpa [hgo] using hs
  | true =>
    simp only [hgo, Bool.not_true, Bool.false_eq_true, if_false, List.all_append,
      Bool.and_eq_true]
    refine ⟨hs, ?_⟩
    apply thread_main_loop_run_edges
    rw [thread_main_loop_startup_go pool state env hgo]
    exact hrun

theorem mem_workers (pool : thread_pool) (t : thread_state) :
    t ∈ workers pool ↔ some t ∈ pool.threads := by
  unfold workers
  constructor
  · intro h
    rcases List.mem_filterMap.mp h with ⟨o, ho, hid⟩
    simp only [id] at hid
    rw [← hid]
    exact ho
  · intro h
    exact List.mem_filterMap.mpr ⟨some t, h, rfl⟩

/-- The script-loading phase changes neither the array nor `count` and `single`. -/
theorem init_thread_lua_state_shape (pool : thread_pool) (state : thread_state)
    (env : script_env) :
    (init_thread_lua_state pool state env).2.1.count = pool.count
    ∧ (init_thread_lua_state pool state env).2.1.single = pool.single
    ∧ (init_thread_lua_state pool state env).2.1.threads = pool.threads := by
  unfold init_thread_lua_state
  split_ifs <;> exact ⟨rfl, rfl, rfl⟩

theorem thread_main_loop_setup_shape (pool : thread_pool) (state : thread_state)
    (env : worker_env) :
    (thread_main_loop_setup pool state env).2.1.count = pool.count
    ∧ (thread_main_loop_setup pool state env).2.1.single = pool.single
    ∧ (thread_main_loop_setup pool state env).2.1.threads = pool.threads := by
  have hi := init_thread_lua_state_shape pool state env.script
  unfold thread_main_loop_setup thread_main_loop_abort
  dsimp only
  split_ifs <;> first | exact ⟨rfl, rfl, rfl⟩ | exact hi

theorem thread_main_loop_engine_shape (pool : thread_pool) (state : thread_state)
    (env : worker_env) (ev : List Event) :
    (thread_main_loop_engine pool state env ev).2.1 = pool := by
  unfold thread_main_loop_engine
  split_ifs <;> rfl

theorem thread_main_loop_startup_shape (pool : thread_pool) (state : thread_state)
    (env : worker_env) :
    (thread_main_loop_startup pool state env).2.1.count = pool.count
    ∧ (thread_main_loop_startup pool state env).2.1.single = pool.single
    ∧ (thread_main_loop_startup pool state env).2.1.threads = pool.threads := by
  have hs := thread_main_loop_setup_shape pool state env
  unfold thread_main_loop_startup
  cases hgo : (thread_main_loop_setup pool state env).1 with
  | false => simpa [hgo] using hs
  | true =>
    simp only [hgo, Bool.not_true, Bool.false_eq_true, if_false]
    rw [thread_main_loop_engine_shape]
    exact hs

theorem thread_pool_create_loop_shape (env : create_env) (idx : List Nat) :
    ∀ (pool : thread_pool) (ev : List Event) (p : thread_pool) (ev2 : List Event),
      thread_pool_create_loop env idx pool ev = (some p, ev2) →
      p.count = pool.count ∧ p.single = pool.single
        ∧ p.threads.length = pool.threads.length := by
  induction idx with
  | nil =>
    intro pool ev p ev2 h
    simp only [thread_pool_create_loop, Prod.mk.injEq, Option.some.injEq] at h
    rw [← h.1]
    exact ⟨rfl, rfl, rfl⟩
  | cons i rest ih =>
    intro pool ev p ev2 h
    rw [thread_pool_create_loop] at h
    rcases hinit : init_thread_state (↑i) (env.worker i) with ⟨o, e⟩
    rw [hinit] at h
    cases o with
    | none =>
      simp only [Prod.mk.injEq] at h
      exact absurd h.1 (by simp)
    | some st =>
      have hil := init_thread_lua_state_shape
        { pool with threads := pool.threads.set i (some st) } st (env.worker i).script
      cases hcreate : (env.worker i).thread_create with
      | none =>
        simp only [hcreate] at h
        split_ifs at h
        · simp only [Prod.mk.injEq] at h
          exact absurd h.1 (by simp)
        · have hr := ih _ _ p ev2 h
          rw [hil.1, hil.2.1, hil.2.2] at hr
          simpa using hr
        · simp only [Prod.mk.injEq] at h
          exact absurd h.1 (by simp)
      | some th =>
        have hw := thread_main_loop_startup_shape
          { pool with threads := pool.threads.set i (some st) }
          { st with thread := th, state := STATE_RUNNING } (env.worker i)
        simp only [hcreate] at h
        split_ifs at h
        · simp only [Prod.mk.injEq] at h
          exact absurd h.1 (by simp)
        · have hr := ih _ _ p ev2 h
          rw [hil.1, hil.2.1, hil.2.2] at hr
          simpa using hr
        · simp only [Prod.mk.injEq] at h
          exact absurd h.1 (by simp)
        · simp only [Prod.mk.injEq] at h
          exact absurd h.1 (by simp)
        · have hr := ih _ _ p ev2 h
          simp only [List.length_set] at hr
          rw [hw.1, hw.2.1, hw.2.2] at hr
          simpa using hr

/-- Every pool returned by `thread_pool_create` is well formed. -/
theorem thread_pool_create_well_formed (count : Int) (attach_debugger : Bool)
    (env : create_env) (p : thread_pool) (ev : List Event)
    (h : thread_pool_create count attach_debugger env = (some p, ev)) :
    well_formed p ∧ p.count = count := by
  unfold thread_pool_create at h
  split_ifs at h
  · simp only [Prod.mk.injEq] at h
    exact absurd h.1 (by simp)
  · simp only [Prod.mk.injEq] at h
    exact absurd h.1 (by simp)
  · simp only [Prod.mk.injEq] at h
    exact absurd h.1 (by simp)
  · have hr := thread_pool_create_loop_shape env _ _ _ p ev h
    simp only [thread_pool_attachdebugger, List.length_replicate] at hr
    unfold well_formed
    rw [hr.1, hr.2.1, hr.2.2]
    exact ⟨⟨rfl, rfl⟩, rfl⟩
  · have hr := thread_pool_create_loop_shape env _ _ _ p ev h
    simp only [List.length_replicate] at hr
    unfold well_formed
    rw [hr.1, hr.2.1, hr.2.2]
    exact ⟨⟨rfl, rfl⟩, rfl⟩

/-! ## The debugger counters in the states the program reaches -/

theorem init_thread_state_debugger (id : Int) (env : worker_env) (st : thread_state)
    (h : (init_thread_state id env).1 = some st) : st.attach_debugger = 0 := by
  unfold init_thread_state at h
  split at h
  · cases h
  · split at h
    · cases h
    · split at h
      · cases h
      · simp only [Option.some.injEq] at h
        rw [← h]
        rfl

theorem init_thread_lua_state_debugger (pool : thread_pool) (state : thread_state)
    (env : script_env) :
    (init_thread_lua_state pool state env).2.1.attach_debugger = state.attach_debugger := by
  unfold init_thread_lua_state
  split_ifs <;> rfl

theorem thread_main_loop_setup_debugger (pool : thread_pool) (state : thread_state)
    (env : worker_env) :
    (thread_main_loop_setup pool state env).2.2.1.attach_debugger = state.attach_debugger
    ∧ ((thread_main_loop_setup pool state env).2.1.attach_debugger = pool.attach_debugger
      ∨ (thread_main_loop_setup pool state env).2.1.attach_debugger
          = state.attach_debugger) := by
  have hi := init_thread_lua_state_debugger pool state env.script
  unfold thread_main_loop_setup thread_main_loop_abort
  dsimp only
  split_ifs <;> first | exact ⟨rfl, Or.inl rfl⟩ | exact ⟨rfl, Or.inr hi⟩

theorem thread_main_loop_engine_debugger (pool : thread_pool) (state : thread_state)
    (env : worker_env) (ev : List Event) :
    (thread_main_loop_engine pool state env ev).2.2.1.attach_debugger
      = state.attach_debugger := by
  unfold thread_main_loop_engine
  split_ifs <;> rfl

theorem thread_main_loop_startup_debugger (pool : thread_pool) (state : thread_state)
    (env : worker_env) :
    (thread_main_loop_startup pool state env).2.2.1.attach_debugger = state.attach_debugger
    ∧ ((thread_main_loop_startup pool state env).2.1.attach_debugger = pool.attach_debugger
      ∨ (thread_main_loop_startup pool state env).2.1.attach_debugger
          = state.attach_debugger) := by
  have hs := thread_main_loop_setup_debugger pool state env
  unfold thread_main_loop_startup
  cases hgo : (thread_main_loop_setup pool state env).1 with
  | false => simpa [hgo] using hs
  | true =>
    simp only [hgo, Bool.not_true, Bool.false_eq_true, if_false]
    rw [thread_main_loop_engine_shape, thread_main_loop_engine_debugger]
    exact hs

theorem thread_pool_create_loop_fresh (env : create_env) (idx : List Nat) :
    ∀ (pool : thread_pool) (ev : List Event) (p : thread_pool) (ev2 : List Event),
      counters_fresh pool 0 →
      thread_pool_create_loop env idx pool ev = (some p, ev2) →
      counters_fresh p 0 := by
  induction idx with
  | nil =>
    intro pool ev p ev2 hf h
    simp only [thread_pool_create_loop, Prod.mk.injEq, Option.some.injEq] at h
    rw [← h.1]
    exact hf
  | cons i rest ih =>
    intro pool ev p ev2 hf h
    have hid := init_thread_state_debugger i (env.worker i)
    rw [thread_pool_create_loop] at h
    rcases hinit : init_thread_state (↑i) (env.worker i) with ⟨o, e⟩
    rw [hinit] at h hid
    cases o with
    | none =>
      simp only [Prod.mk.injEq] at h
      exact absurd h.1 (by simp)
    | some st =>
      have hst : st.attach_debugger = 0 := hid st rfl
      have hmem : ∀ t, some t ∈ pool.threads.set i (some st) → t.attach_debugger = 0 := by
        intro t ht
        rcases List.mem_or_eq_of_mem_set ht with hm | heq
        · exact hf.1 t hm
        · cases heq
          exact hst
      have hil := init_thread_lua_state_shape
        { pool with threads := pool.threads.set i (some st) } st (env.worker i).script
      have hild := init_thread_lua_state_debugger
        { pool with threads := pool.threads.set i (some st) } st (env.worker i).script
      have hsingle : counters_fresh (init_thread_lua_state
          { pool with threads := pool.threads.set i (some st) } st
          (env.worker i).script).2.1 0 := by
        refine ⟨?_, ?_, ?_⟩
        · rw [hil.2.2]
          exact hmem
        · rw [hild, hst]
        · rw [hild, hst]
          decide
      cases hcreate : (env.worker i).thread_create with
      | none =>
        simp only [hcreate] at h
        split_ifs at h
        · simp only [Prod.mk.injEq] at h
          exact absurd h.1 (by simp)
        · exact ih _ _ p ev2 hsingle h
        · simp only [Prod.mk.injEq] at h
          exact absurd h.1 (by simp)
      | some th =>
        have hw := thread_main_loop_startup_shape
          { pool with threads := pool.threads.set i (some st) }
          { st with thread := th, state := STATE_RUNNING } (env.worker i)
        have hwd := thread_main_loop_startup_debugger
          { pool with threads := pool.threads.set i (some st) }
          { st with thread := th, state := STATE_RUNNING } (env.worker i)
        simp only [hcreate] at h
        split_ifs at h
        · simp only [Prod.mk.injEq] at h
          exact absurd h.1 (by simp)
        · exact ih _ _ p ev2 hsingle h
        · simp only [Prod.mk.injEq] at h
          exact absurd h.1 (by simp)
        · simp only [Prod.mk.injEq] at h
          exact absurd h.1 (by simp)
        · apply ih _ _ p ev2 _ h
          have hg : 0 ≤ (thread_main_loop_startup
                { pool with threads := pool.threads.set i (some st) }
                { st with thread := th, state := STATE_RUNNING }
                (env.worker i)).2.1.attach_debugger
              ∧ (thread_main_loop_startup
                { pool with threads := pool.threads.set i (some st) }
                { st with thread := th, state := STATE_RUNNING }
                (env.worker i)).2.1.attach_debugger ≤ 1 + ((0 : Nat) : Int) := by
            rcases hwd.2 with hg | hg
            · rw [hg]
              exact hf.2
            · rw [hg]
              simp only [hst]
              decide
          refine ⟨?_, hg.1, hg.2⟩
          intro t ht
          simp only [hw.2.2] at ht
          rcases List.mem_or_eq_of_mem_set ht with hm | heq
          · exact hmem t hm
          · cases heq
            rw [hwd.1]
            exact hst

theorem thread_pool_create_fresh (count : Int) (attach_debugger : Bool)
    (env : create_env) (p : thread_pool) (ev : List Event)
    (h : thread_pool_create count attach_debugger env = (some p, ev)) :
    counters_fresh p 0 := by
  have hnone : ∀ t : thread_state,
      some t ∈ List.replicate count.toNat (none : Option thread_state) →
        t.attach_debugger = 0 := by
    intro t ht
    have := List.eq_of_mem_replicate ht
    cases this
  unfold thread_pool_create at h
  split_ifs at h
  · simp only [Prod.mk.injEq] at h
    exact absurd h.1 (by simp)
  · simp only [Prod.mk.injEq] at h
    exact absurd h.1 (by simp)
  · simp only [Prod.mk.injEq] at h
    exact absurd h.1 (by simp)
  · have h01 : (0 : Int) ≤ int32_wrap (0 + 1) ∧ int32_wrap (0 + 1) ≤ 1 + ((0 : Nat) : Int) := by
      decide
    exact thread_pool_create_loop_fresh env _ _ _ p ev ⟨hnone, h01.1, h01.2⟩ h
  · have h00 : (0 : Int) ≤ 0 ∧ (0 : Int) ≤ 1 + ((0 : Nat) : Int) := by decide
    exact thread_pool_create_loop_fresh env _ _ _ p ev ⟨hnone, h00.1, h00.2⟩ h

theorem attachdebugger_bound (pool : thread_pool) (n : Nat)
    (h0 : 0 ≤ pool.attach_debugger) (h1 : pool.attach_debugger ≤ 1 + (n : Int))
    (hn : n + 1 < 2147483646) :
    (thread_pool_attachdebugger pool).attach_debugger = pool.attach_debugger + 1 := by
  simp only [thread_pool_attachdebugger]
  apply int32_wrap_succ
  · unfold INT32_MIN
    omega
  · unfold INT32_MAX
    omega

theorem run_steps_fresh (steps : List debugger_step) :
    ∀ (pool : thread_pool) (n : Nat), counters_fresh pool n →
      (∀ s ∈ steps, is_run_extra s = false) →
      n + attach_calls steps < 2147483646 →
      counters_fresh (run_steps pool steps) (n + attach_calls steps) := by
  induction steps with
  | nil => intro pool n hf _ _; exact hf
  | cons s rest ih =>
    intro pool n hf hs hb
    have hrest : ∀ s ∈ rest, is_run_extra s = false :=
      fun u hu => hs u (List.mem_cons_of_mem _ hu)
    have hhead := hs s (List.mem_cons_self _ _)
    simp only [run_steps, List.foldl_cons]
    cases s with
    | attachdebugger =>
      simp only [attach_calls] at hb ⊢
      have hg := attachdebugger_bound pool n hf.2.1 hf.2.2 (by omega)
      have hf2 : counters_fresh (thread_pool_attachdebugger pool) (n + 1) := by
        refine ⟨hf.1, ?_, ?_⟩
        · rw [hg]; have := hf.2.1; omega
        · rw [hg]; have := hf.2.2; push_cast; omega
      have := ih (thread_pool_attachdebugger pool) (n + 1) hf2 hrest (by omega)
      have he : n + (attach_calls rest + 1) = n + 1 + attach_calls rest := by omega
      rw [he]
      exact this
    | init_thread_lua_state i env =>
      simp only [attach_calls] at hb ⊢
      apply ih _ n _ hrest hb
      simp only [apply_step, on_thread]
      split
      · rename_i t ht
        have htmem : some t ∈ pool.threads := List.getElem?_mem ht
        have ht0 := hf.1 t htmem
        refine ⟨?_, ?_, ?_⟩
        · intro u hu
          simp only [(init_thread_lua_state_shape pool t env).2.2] at hu
          rcases List.mem_or_eq_of_mem_set hu with hm | heq
          · exact hf.1 u hm
          · cases heq
            exact ht0
        · simp only [init_thread_lua_state_debugger, ht0]
          decide
        · simp only [init_thread_lua_state_debugger, ht0]
          omega
      · exact hf
    | packet_receive_wrapper i env out =>
      simp only [attach_calls] at hb ⊢
      exact ih _ n hf hrest hb
    | lua_state_run_extra i => cases hhead

theorem run_steps_ordered (steps : List debugger_step) :
    ∀ (pool : thread_pool) (n : Nat), counters_ordered pool n →
      (∀ s ∈ steps, is_init s = false) →
      n + attach_calls steps < 2147483646 →
      counters_ordered (run_steps pool steps) (n + attach_calls steps) := by
  induction steps with
  | nil => intro pool n hf _ _; exact hf
  | cons s rest ih =>
    intro pool n hf hs hb
    have hrest : ∀ s ∈ rest, is_init s = false :=
      fun u hu => hs u (List.mem_cons_of_mem _ hu)
    have hhead := hs s (List.mem_cons_self _ _)
    simp only [run_steps, List.foldl_cons]
    cases s with
    | attachdebugger =>
      simp only [attach_calls] at hb ⊢
      have hg := attachdebugger_bound pool n hf.2.1 hf.2.2 (by omega)
      have hf2 : counters_ordered (thread_pool_attachdebugger pool) (n + 1) := by
        refine ⟨?_, ?_, ?_⟩
        · intro t ht
          have := hf.1 t ht
          rw [hg]
          omega
        · rw [hg]; have := hf.2.1; omega
        · rw [hg]; have := hf.2.2; push_cast; omega
      have := ih (thread_pool_attachdebugger pool) (n + 1) hf2 hrest (by omega)
      have he : n + (attach_calls rest + 1) = n + 1 + attach_calls rest := by omega
      rw [he]
      exact this
    | init_thread_lua_state i env => cases hhead
    | packet_receive_wrapper i env out =>
      simp only [attach_calls] at hb ⊢
      exact ih _ n hf hrest hb
    | lua_state_run_extra i =>
      simp only [attach_calls] at hb ⊢
      apply ih _ n _ hrest hb
      simp only [apply_step, on_thread]
      split
      · rename_i t ht
        have htmem : some t ∈ pool.threads := List.getElem?_mem ht
        have htle := hf.1 t htmem
        refine ⟨?_, hf.2.1, hf.2.2⟩
        intro u hu
        rcases List.mem_or_eq_of_mem_set hu with hm | heq
        · exact hf.1 u hm
        · cases heq
          unfold lua_state_run_extra
          split_ifs
          · exact le_refl _
          · exact htle
      · exact hf

theorem attach_calls_append (a b : List debugger_step) :
    attach_calls (a ++ b) = attach_calls a + attach_calls b := by
  induction a with
  | nil => simp [attach_calls]
  | cons s rest ih =>
    cases s with
    | attachdebugger =>
      show attach_calls (rest ++ b) + 1 = attach_calls rest + 1 + attach_calls b
      rw [ih]
      omega
    | init_thread_lua_state i env => exact ih
    | packet_receive_wrapper i env out => exact ih
    | lua_state_run_extra i => exact ih

/-- C5: take any pool returned by `thread_pool_create` and any sequence of
`thread_pool_attachdebugger`, `init_thread_lua_state`, `packet_receive_wrapper`
and `lua_state_run_extra` steps on its workers in the order the program runs
them, no `init_thread_lua_state` after a `lua_state_run_extra` (the former runs
while the pool is created or a worker starts up, the latter in the main loop),
with so few attach calls that the `int32` counter does not overflow. In the
state reached, every worker's local debugger counter is at most the pool's
global debugger counter. -/
theorem debugger_local_le_global (count : Int) (attach_debugger : Bool)
    (env : create_env) (p : thread_pool) (ev : List Event)
    (pre post : List debugger_step)
    (hcreate : thread_pool_create count attach_debugger env = (some p, ev))
    (hpre : ∀ s ∈ pre, is_run_extra s = false)
    (hpost : ∀ s ∈ post, is_init s = false)
    (hattach : (attach_calls (pre ++ post) : Int) + 1 < INT32_MAX) :
    (∀ t ∈ workers (run_steps p (pre ++ post)),
        t.attach_debugger ≤ (run_steps p (pre ++ post)).attach_debugger)
    ∧ debugger_invariant (run_steps p (pre ++ post)) = true := by
  have hb : attach_calls pre + attach_calls post < 2147483646 := by
    unfold INT32_MAX at hattach
    rw [attach_calls_append] at hattach
    omega
  have h0 := thread_pool_create_fresh count attach_debugger env p ev hcreate
  have h1 := run_steps_fresh pre p 0 h0 hpre (by omega)
  have h2 : counters_ordered (run_steps p pre) (0 + attach_calls pre) :=
    ⟨fun t ht => by rw [h1.1 t ht]; exact h1.2.1, h1.2.1, h1.2.2⟩
  have h3 := run_steps_ordered post (run_steps p pre) (0 + attach_calls pre) h2 hpost
    (by omega)
  have hsplit : run_steps p (pre ++ post) = run_steps (run_steps p pre) post := by
    simp only [run_steps, List.foldl_append]
  rw [hsplit]
  have hall : ∀ t ∈ workers (run_steps (run_steps p pre) post),
      t.attach_debugger ≤ (run_steps (run_steps p pre) post).attach_debugger :=
    fun t ht => h3.1 t ((mem_workers _ t).mp ht)
  refine ⟨hall, ?_⟩
  unfold debugger_invariant
  rw [List.all_eq_true]
  intro t ht
  exact decide_eq_true (hall t ht)

/-- Instance of `debugger_local_le_global`: the two-worker pool built by
`thread_pool_create`, an attach and a late `init_thread_lua_state` before the
first `lua_state_run_extra`, then attaches, receives and `lua_state_run_extra`
calls. -/
theorem debugger_local_le_global_witness :
    debugger_invariant (run_steps (running_pool false 0)
      ([debugger_step.attachdebugger, debugger_step.init_thread_lua_state 1 script_ok]
        ++ [debugger_step.attachdebugger, debugger_step.lua_state_run_extra 0,
            debugger_step.attachdebugger,
            debugger_step.packet_receive_wrapper 1
              { packet_receive_ret := 0, packet_receive_pkt := some 7,
                lua_state_has_interrupts := false,
                engine_thread_has_remote_launch := false }
              { pkt := none, has_extra := false, stop := false },
            debugger_step.lua_state_run_extra 1])) = true :=
  (debugger_local_le_global 2 false create_env_ok (running_pool false 0)
    (thread_pool_create 2 false create_env_ok).2
    [debugger_step.attachdebugger, debugger_step.init_thread_lua_state 1 script_ok]
    [debugger_step.attachdebugger, debugger_step.lua_state_run_extra 0,
      debugger_step.attachdebugger,
      debugger_step.packet_receive_wrapper 1
        { packet_receive_ret := 0, packet_receive_pkt := some 7,
          lua_state_has_interrupts := false,
          engine_thread_has_remote_launch := false }
        { pkt := none, has_extra := false, stop := false },
      debugger_step.lua_state_run_extra 1]
    (by decide) (by decide) (by decide) (by decide)).2

/-! ## Single-worker pools -/

/-- C9 (defect in the code): a single-worker pool is built without
`thread_create` and its worker keeps the zeroed thread handle; after
`thread_pool_start` has run the loop in-line the worker is Finished, and a
following `thread_pool_wait` calls `thread_join` on that handle. -/
theorem single_pool_wait_after_start_joins :
    (thread_pool_create 1 false create_env_ok).2
        = [Event.lua_state_init 0, Event.init_state 0]
    ∧ (thread_pool_create 1 false create_env_ok).1.map
        (fun p => (p.count, p.single, (workers p).map (fun t => t.thread)))
      = some (1, true, [0])
    ∧ (thread_pool_create 1 false create_env_ok).1.map
        (fun p =>
          ((workers (thread_pool_start p worker_env_ok).1).map (fun t => t.state),
            join_calls (thread_pool_wait (thread_pool_start p worker_env_ok).1).2))
      = some ([STATE_FINISHED], [Event.thread_join 0]) :=
  ⟨by decide, by decide, by decide⟩

end Haka
